import Mathlib

/-!
Shallow embedding of `src/app.py` (Azure AI Translator Streamlit front-end).

The Python module talks to a provider over HTTP.  We embed each function as a
pure Lean function that takes the provider's would-be response as an explicit
argument (`Except Unit Json`: `.error` models any network / HTTP-status /
JSON-parse failure raised before the body is inspected) and returns the list
of HTTP requests the function issues, the list of UI messages it emits
(`st.info` / `st.error` / `st.warning`), and its return value.

Python semantics that matter here are modelled explicitly: subscripting and
`dict` access that can raise become `Option`-valued helpers, truthiness is
`pyTruthy`, `dict` keys compare by Python `==` (where `True == 1`), and
`str.rstrip("/")` is `rstripSlash`.  Floating-point numbers are modelled as
exact rationals; `f"{x:.2%}"` is `formatPercent` (round-half-up on the exact
rational - the binary-float rounding of CPython is not modelled, which is
irrelevant at the exactly representable scores used below).
-/

/-- JSON values as returned by `response.json()`.  Object keys are strings
(JSON object keys always are); numbers are modelled as exact rationals. -/
inductive Json where
  | null
  | bool (b : Bool)
  | str (s : String)
  | num (q : ℚ)
  | arr (elems : List Json)
  | obj (fields : List (String × Json))

namespace Json

/-- Python subscription `j[k]` with a string key: succeeds only on a dict
(`obj`); anything else raises (`TypeError` / `KeyError`), modelled as `none`. -/
def getField : Json → String → Option Json
  | .obj fields, k => (fields.find? (fun p => p.1 = k)).map (fun p => p.2)
  | _, _ => none

/-- Python subscription `j[i]` with a non-negative integer index: succeeds on a
list, and on a string (yielding a one-character string); raises otherwise. -/
def index : Json → Nat → Option Json
  | .arr elems, i => elems.get? i
  | .str s, i => (s.data.get? i).map (fun c => Json.str (String.mk [c]))
  | _, _ => none

/-- Python `j == s` for a string literal `s`: true exactly when `j` is that
string. -/
def eqStr : Json → String → Bool
  | .str t, s => t = s
  | _, _ => false

/-- Whether `hay` starts with `needle`. -/
def charsStartWith : List Char → List Char → Bool
  | _, [] => true
  | [], _ :: _ => false
  | c :: cs, d :: ds => c = d && charsStartWith cs ds

/-- Whether `needle` occurs contiguously in `hay` (Python `sub in s`). -/
def charsContain (hay needle : List Char) : Bool :=
  match hay with
  | [] => needle.isEmpty
  | _ :: rest => charsStartWith hay needle || charsContain rest needle

/-- Python `k in j` for a string `k`: key membership on dicts, element
membership on lists, substring test on strings; raises (`none`) otherwise. -/
def hasMember : Json → String → Option Bool
  | .obj fields, k => some (fields.any (fun p => p.1 = k))
  | .arr elems, k => some (elems.any (fun j => j.eqStr k))
  | .str s, k => some (charsContain s.data k.data)
  | _, _ => none

/-- Python truthiness of a JSON value (`if data:`). -/
def pyTruthy : Json → Bool
  | .null => false
  | .bool b => b
  | .num q => q ≠ 0
  | .str s => s ≠ ""
  | .arr elems => ¬elems.isEmpty
  | .obj fields => ¬fields.isEmpty

/-- Python `len(j)`: defined for strings, lists and dicts; raises otherwise. -/
def pyLen : Json → Option Nat
  | .str s => some s.length
  | .arr elems => some elems.length
  | .obj fields => some fields.length
  | _ => none

/-- The numeric value a JSON scalar contributes to a numeric format spec
(`f"{x:.2%}"`): numbers themselves, and bools (Python `bool` is an `int`
subclass); everything else raises a format error. -/
def asNum : Json → Option ℚ
  | .num q => some q
  | .bool b => some (if b then 1 else 0)
  | _ => none

/-- Python `str(j)` as used in f-string interpolation.  Container and numeric
representations are approximations (never exercised by the theorems below);
scalar strings are exact. -/
def pyStr : Json → String
  | .null => "None"
  | .bool true => "True"
  | .bool false => "False"
  | .str s => s
  | .num q => toString q
  | .arr _ => "[...]"
  | .obj _ => "\x7b...\x7d"

end Json

/-- Normalised form of a hashable Python dict key, quotienting by Python `==`
(`True == 1`, `False == 0`).  Unhashable values (lists, dicts) have no key. -/
inductive PyKey where
  | none_
  | num (q : ℚ)
  | str (s : String)
  deriving DecidableEq

/-- The dict-key view of a JSON value: `none` for unhashable values. -/
def pyKeyOf : Json → Option PyKey
  | .null => some .none_
  | .bool b => some (.num (if b then 1 else 0))
  | .num q => some (.num q)
  | .str s => some (.str s)
  | .arr _ => none
  | .obj _ => none

/-- Python `==` between two (hashable) dict keys. -/
def pyKeyEq (a b : Json) : Bool := pyKeyOf a = pyKeyOf b

/-- A Python dict with JSON keys and string values, as an insertion-ordered
association list (Python 3.7+ dicts preserve insertion order). -/
abbrev PyDict := List (Json × String)

/-- Python `d.get(k)` / `d[k]` lookup. -/
def pyDictGet (d : PyDict) (k : Json) : Option String :=
  (d.find? (fun p => pyKeyEq p.1 k)).map (fun p => p.2)

/-- Python `d[k] = v`: overwriting an existing key keeps the original key
object and its position; a new key is appended. -/
def pyDictInsert (d : PyDict) (k : Json) (v : String) : PyDict :=
  if d.any (fun p => pyKeyEq p.1 k) then
    d.map (fun p => if pyKeyEq p.1 k then (p.1, v) else p)
  else
    d ++ [(k, v)]

/-- Python `s.rstrip("/")`: remove every trailing slash. -/
def rstripSlash (s : String) : String :=
  String.mk ((s.data.reverse.dropWhile (fun c => c = '/')).reverse)

/-- `azure_ai_translator_endpoint.rstrip("/") + path`, the URL construction
shared by all three request sites (app.py lines 44, 92, 139). -/
def buildUrl (endpoint path : String) : String :=
  rstripSlash endpoint ++ path

/-- Python `f"{x:.2%}"`: multiply by 100 and print with two decimal places and
a trailing percent sign.  Rounding is half-up on the exact rational:
`floor(q*10000 + 1/2)` hundredths of a percent, computed structurally on the
numerator and denominator as `fdiv (20000*num + den) (2*den)`. -/
def formatPercent (q : ℚ) : String :=
  let n : ℤ := Int.fdiv (q.num * 20000 + (q.den : ℤ)) (2 * (q.den : ℤ))
  let sign := if n < 0 then "-" else ""
  let m := n.natAbs
  sign ++ toString (m / 100) ++ "." ++
    (if m % 100 < 10 then "0" else "") ++ toString (m % 100) ++ "%"

/-- An HTTP request issued by the app.  `params` is the query-parameter list in
the order the Python `dict` passed to `requests` would serialise it. -/
structure Request where
  method : String
  url : String
  params : List (String × String)
  body : Option Json

/-- A Streamlit UI message (`st.info` / `st.error` / `st.warning`).  Error
texts elide the interpolated exception object. -/
inductive Message where
  | info (s : String)
  | error (s : String)
  | warning (s : String)

/-- Combined observable outcome of one app function call: the HTTP requests it
issued, the UI messages it emitted, and its return value. -/
structure FnOutput (α : Type) where
  requests : List Request
  messages : List Message
  result : α

/-- One iteration of the catalog-building loop (app.py lines 55-57): insert
`details["name"] ↦ lang_code`.  A missing `"name"` key or an unhashable name
value raises, modelled as `none`. -/
def catalogStep (d : PyDict) (e : String × Json) : Option PyDict :=
  match e.2.getField "name" with
  | some n => if (pyKeyOf n).isSome then some (pyDictInsert d n e.1) else none
  | none => none

/-- The body of the `try` block of `fetch_languages` after a successful HTTP
round-trip (app.py lines 52-59): read `data["translation"]`, iterate its
items in order, and run `catalogStep` on each.  A missing `"translation"` key
or a non-dict value raises, modelled as `none`. -/
def fetchBody (data : Json) : Option PyDict :=
  match data.getField "translation" with
  | some (Json.obj entries) => entries.foldlM catalogStep []
  | _ => none

/-- `fetch_languages()` (app.py lines 30-62): one GET to `/languages` with
`api-version=3.0&scope=translation`; on success builds the name → code dict;
on any failure emits one `st.error` and returns the empty dict. -/
def fetch_languages (endpoint : String) (resp : Except Unit Json) :
    FnOutput PyDict :=
  let req : Request :=
    ⟨"GET", buildUrl endpoint "/languages",
     [("api-version", "3.0"), ("scope", "translation")], none⟩
  match resp with
  | .error _ => ⟨[req], [.error "Error fetching supported languages"], []⟩
  | .ok data =>
    match fetchBody data with
    | some languages => ⟨[req], [], languages⟩
    | none => ⟨[req], [.error "Error fetching supported languages"], []⟩

/-- `language_names = ["Detect"] + list(languages.keys())` (app.py line 65). -/
def language_names (languages : PyDict) : List Json :=
  Json.str "Detect" :: languages.map (fun p => p.1)

/-- `data[0]["translations"][0]["text"]` (app.py line 110). -/
def extract_translation (data : Json) : Option Json := do
  let e0 ← data.index 0
  let trs ← e0.getField "translations"
  let t0 ← trs.index 0
  t0.getField "text"

/-- `next((name for name, code in languages.items() if code == target), target)`
(app.py lines 117-120 and 160-163): first display name whose code equals the
detected code, falling back to the raw detected value. -/
def reverse_lookup (languages : PyDict) (code : Json) : Json :=
  match languages.find? (fun p => code.eqStr p.2) with
  | some p => p.1
  | none => code

/-- The `st.info` text of app.py line 121. -/
def detectedInfoText (name : Json) (q : ℚ) : String :=
  "Detected language: " ++ name.pyStr ++ " (confidence: " ++ formatPercent q ++ ")"

/-- The body of the `try` block of `translate_text` after a successful HTTP
round-trip (app.py lines 108-123): extract the translation, and, when the
source selection is `"Detect"` and `data[0]` has a `detectedLanguage` member,
also emit the detected-language `st.info` message.  Any raising subscript,
membership test, or format of a non-numeric score is `none`. -/
def translateBody (languages : PyDict) (source_language_name : String)
    (data : Json) : Option (Json × List Message) := do
  let result ← extract_translation data
  if source_language_name = "Detect" then do
    let e0 ← data.index 0
    let hasDet ← e0.hasMember "detectedLanguage"
    if hasDet then do
      let det ← e0.getField "detectedLanguage"
      let code ← det.getField "language"
      let score ← det.getField "score"
      let q ← score.asNum
      pure (result, [Message.info (detectedInfoText (reverse_lookup languages code) q)])
    else
      pure (result, [])
  else
    pure (result, [])

/-- The query-parameter dict of `translate_text` (app.py lines 80-89):
`api-version` and `to` always; `from` appended only when the source selection
is not `"Detect"` and resolves to a truthy code. -/
def translateParams (languages : PyDict)
    (source_language_name : String) (target_lang_code : String) :
    List (String × String) :=
  let base := [("api-version", "3.0"), ("to", target_lang_code)]
  if source_language_name ≠ "Detect" then
    match pyDictGet languages (Json.str source_language_name) with
    | some source_lang_code =>
        if source_lang_code ≠ "" then base ++ [("from", source_lang_code)]
        else base
    | none => base
  else base

/-- `translate_text(input_text, source_language_name, target_language_name)`
(app.py lines 67-127).  `resp` is the provider's behaviour for the one POST
the function would issue. -/
def translate_text (languages : PyDict) (endpoint : String)
    (input_text source_language_name target_language_name : String)
    (resp : Except Unit Json) : FnOutput Json :=
  match pyDictGet languages (Json.str target_language_name) with
  | none => ⟨[], [], Json.str "Invalid target language selection."⟩
  | some target_lang_code =>
    if target_lang_code = "" then
      ⟨[], [], Json.str "Invalid target language selection."⟩
    else
      let req : Request :=
        ⟨"POST", buildUrl endpoint "/translate",
         translateParams languages source_language_name target_lang_code,
         some (Json.arr [Json.obj [("Text", Json.str input_text)]])⟩
      match resp with
      | .error _ =>
          ⟨[req], [.error "Translation error"], Json.str "Error during translation."⟩
      | .ok data =>
        match translateBody languages source_language_name data with
        | some (result, msgs) => ⟨[req], msgs, result⟩
        | none =>
            ⟨[req], [.error "Translation error"], Json.str "Error during translation."⟩

/-- Python whitespace characters stripped by `str.strip()` (ASCII range;
exotic Unicode space characters are not modelled). -/
def pyIsSpace (c : Char) : Bool :=
  c = ' ' ∨ c = '\t' ∨ c = '\n' ∨ c = '\r' ∨ c = '\x0b' ∨ c = '\x0c'

/-- `not input_text.strip()`: the string is empty or all whitespace. -/
def pyIsBlank (s : String) : Bool := s.data.all pyIsSpace

/-- The body of the `try` block of `detect_language` after a successful HTTP
round-trip (app.py lines 154-164): `some none` when the `if data and
len(data) > 0` guard fails (falls through to `return None, None` with no
message), `some (some (name, score))` on success, `none` when something
raises. -/
def detectBody (languages : PyDict) (data : Json) :
    Option (Option (Json × Json)) := do
  if data.pyTruthy then do
    let n ← data.pyLen
    if n > 0 then do
      let e0 ← data.index 0
      let code ← e0.getField "language"
      let score ← e0.getField "score"
      pure (some (reverse_lookup languages code, score))
    else
      pure none
  else
    pure none

/-- `detect_language(input_text)` (app.py lines 129-168): no-op on blank
input; otherwise one POST to `/detect`; returns the reverse-looked-up name
and raw score, or `(None, None)` on guard failure or any raised error. -/
def detect_language (languages : PyDict) (endpoint : String)
    (input_text : String) (resp : Except Unit Json) :
    FnOutput (Option Json × Option Json) :=
  if pyIsBlank input_text then ⟨[], [], (none, none)⟩
  else
    let req : Request :=
      ⟨"POST", buildUrl endpoint "/detect", [("api-version", "3.0")],
       some (Json.arr [Json.obj [("Text", Json.str input_text)]])⟩
    match resp with
    | .error _ => ⟨[req], [.error "Language detection error"], (none, none)⟩
    | .ok data =>
      match detectBody languages data with
      | some (some (name, score)) => ⟨[req], [], (some name, some score)⟩
      | some none => ⟨[req], [], (none, none)⟩
      | none => ⟨[req], [.error "Language detection error"], (none, none)⟩

/-- `language_names.index("English") if "English" in language_names else 1`
(app.py line 209).  Python `list.index` compares with `==`; only a string
element can equal `"English"`. -/
def target_language_index (names : List Json) : Nat :=
  if names.any (fun j => j.eqStr "English") then
    names.findIdx (fun j => j.eqStr "English")
  else 1

/-- The option list of the target-language selectbox: `language_names[1:]`
(app.py line 212), excluding the `"Detect"` sentinel. -/
def target_language_options (names : List Json) : List Json := names.drop 1

/-- The default target selection: the element of `language_names[1:]` at
`index=target_language_index-1` (app.py lines 210-214). -/
def default_target_language (names : List Json) : Option Json :=
  (target_language_options names).get? (target_language_index names - 1)

/-! ## Helper lemmas -/

theorem pyKeyEq_iff {a b : Json} : pyKeyEq a b = true ↔ pyKeyOf a = pyKeyOf b := by
  simp [pyKeyEq]

theorem pyKeyEq_refl (a : Json) : pyKeyEq a a = true := pyKeyEq_iff.mpr rfl

theorem pyKeyEq_symm {a b : Json} (h : pyKeyEq a b = true) : pyKeyEq b a = true :=
  pyKeyEq_iff.mpr (pyKeyEq_iff.mp h).symm

theorem pyKeyEq_trans {a b c : Json} (h1 : pyKeyEq a b = true)
    (h2 : pyKeyEq b c = true) : pyKeyEq a c = true :=
  pyKeyEq_iff.mpr ((pyKeyEq_iff.mp h1).trans (pyKeyEq_iff.mp h2))

theorem rstripSlash_append_slash (e : String) :
    rstripSlash (e ++ "/") = rstripSlash e := by
  have hd : (e ++ "/").data = e.data ++ ['/'] := rfl
  simp [rstripSlash, hd, List.reverse_append, List.dropWhile]

theorem buildUrl_append_slash (e p : String) :
    buildUrl (e ++ "/") p = buildUrl e p := by
  simp [buildUrl, rstripSlash_append_slash]

/-! ## Claim theorems -/

/-- Fixture catalog: the two-language catalog used by several witnesses. -/
def catEF : PyDict := [(Json.str "English", "en"), (Json.str "French", "fr")]

/-- Fixture response for a plain successful translation. -/
def respBonjour : Json :=
  Json.arr [Json.obj [("translations", Json.arr [Json.obj [("text", Json.str "Bonjour")]])]]

/-- Claim C2: for every input text and source name, a target display name that
does not resolve in the catalog makes `translate_text` issue zero requests and
return the invalid-selection sentinel. -/
theorem translate_invalid_target (languages : PyDict) (endpoint : String)
    (input_text source_language_name target_language_name : String)
    (resp : Except Unit Json)
    (h : pyDictGet languages (Json.str target_language_name) = none) :
    translate_text languages endpoint input_text source_language_name
        target_language_name resp =
      ⟨[], [], Json.str "Invalid target language selection."⟩ := by
  simp [translate_text, h]

/-- Witness for C2 at a concrete unresolvable target name. -/
theorem translate_invalid_target_witness :
    translate_text catEF "https://x" "Hello" "English" "Klingon" (.error ()) =
      ⟨[], [], Json.str "Invalid target language selection."⟩ :=
  translate_invalid_target catEF "https://x" "Hello" "English" "Klingon"
    (.error ()) rfl

/-- Claim C5 counterexample: with catalog `{"English": "en", "French": "fr"}`
the default target selection is not `"French"` (it is `"English"`, per the
comment on app.py line 208). -/
theorem default_target_not_french_cex :
    ¬ default_target_language (language_names catEF) = some (Json.str "French") := by
  intro h
  have he : default_target_language (language_names catEF) =
      some (Json.str "English") := rfl
  rw [he] at h
  injection h with h1
  injection h1 with h2
  exact absurd h2 (by decide)

/-- Claim C5 (amended): with catalog `{"English": "en", "French": "fr"}` the
target-language option list excludes the `"Detect"` sentinel and the default
target selection is `"English"`. -/
theorem default_target_english :
    (target_language_options (language_names catEF)).all
        (fun j => !(j.eqStr "Detect")) = true ∧
    default_target_language (language_names catEF) = some (Json.str "English") :=
  ⟨rfl, rfl⟩

/-- The ways a translate attempt can fail after the target resolved: the HTTP
round-trip itself (`.error`), or any raising step of the response-processing
body. -/
def translateAttemptFails (languages : PyDict) (source_language_name : String)
    (resp : Except Unit Json) : Prop :=
  match resp with
  | .error _ => True
  | .ok data => translateBody languages source_language_name data = none

/-- Claim C6: whenever the POST, the status check, or the JSON extraction
fails, `translate_text` emits exactly one error message and returns the
literal error sentinel; no exception propagates. -/
theorem translate_error_sentinel (languages : PyDict) (endpoint : String)
    (input_text source_language_name target_language_name : String)
    (target_lang_code : String) (resp : Except Unit Json)
    (h1 : pyDictGet languages (Json.str target_language_name) = some target_lang_code)
    (h2 : target_lang_code ≠ "")
    (h3 : translateAttemptFails languages source_language_name resp) :
    (translate_text languages endpoint input_text source_language_name
        target_language_name resp).messages = [Message.error "Translation error"] ∧
    (translate_text languages endpoint input_text source_language_name
        target_language_name resp).result = Json.str "Error during translation." := by
  cases resp with
  | error e => simp [translate_text, h1, h2]
  | ok data =>
      simp only [translateAttemptFails] at h3
      simp [translate_text, h1, h2, h3]

/-- Witness for C6 at a concrete HTTP failure. -/
theorem translate_error_sentinel_witness :
    (translate_text catEF "https://x" "Hello" "English" "French"
        (.error ())).messages = [Message.error "Translation error"] ∧
    (translate_text catEF "https://x" "Hello" "English" "French"
        (.error ())).result = Json.str "Error during translation." :=
  translate_error_sentinel catEF "https://x" "Hello" "English" "French" "fr"
    (.error ()) rfl (by decide) trivial

/-- Claim C7: an endpoint with a trailing slash yields exactly the same
behaviour (in particular the same request URLs) as the endpoint without it,
for all of `fetch_languages`, `translate_text` and `detect_language`. -/
theorem endpoint_trailing_slash_invariant (endpoint : String)
    (languages : PyDict) (input_text source_language_name target_language_name : String)
    (r1 r2 r3 : Except Unit Json) :
    fetch_languages (endpoint ++ "/") r1 = fetch_languages endpoint r1 ∧
    translate_text languages (endpoint ++ "/") input_text source_language_name
        target_language_name r2 =
      translate_text languages endpoint input_text source_language_name
        target_language_name r2 ∧
    detect_language languages (endpoint ++ "/") input_text r3 =
      detect_language languages endpoint input_text r3 := by
  refine ⟨?_, ?_, ?_⟩ <;>
    simp only [fetch_languages, translate_text, detect_language,
      buildUrl_append_slash]

/-- Claim C8: blank or whitespace-only input makes `detect_language` issue no
request and return the empty result. -/
theorem detect_blank_noop (languages : PyDict) (endpoint : String)
    (input_text : String) (resp : Except Unit Json)
    (h : pyIsBlank input_text = true) :
    detect_language languages endpoint input_text resp = ⟨[], [], (none, none)⟩ := by
  simp [detect_language, h]

/-- Witness for C8 at whitespace-only input. -/
theorem detect_blank_noop_witness :
    detect_language catEF "https://x" "   " (.error ()) = ⟨[], [], (none, none)⟩ :=
  detect_blank_noop catEF "https://x" "   " (.error ()) (by decide)

/-- Claim C10: on non-blank input, a successful `/detect` call whose body is
the empty JSON array returns `(None, None)` with no message: the guard makes
the element-0 access (and hence the error branch) unreachable. -/
theorem detect_empty_response_guarded (languages : PyDict) (endpoint : String)
    (input_text : String) (h : pyIsBlank input_text = false) :
    detect_language languages endpoint input_text (.ok (Json.arr [])) =
      ⟨[⟨"POST", buildUrl endpoint "/detect", [("api-version", "3.0")],
         some (Json.arr [Json.obj [("Text", Json.str input_text)]])⟩],
       [], (none, none)⟩ := by
  simp [detect_language, h, detectBody, Json.pyTruthy]

/-- Witness for C10 at a concrete non-blank input. -/
theorem detect_empty_response_guarded_witness :
    detect_language catEF "https://x" "Hola" (.ok (Json.arr [])) =
      ⟨[⟨"POST", buildUrl "https://x" "/detect", [("api-version", "3.0")],
         some (Json.arr [Json.obj [("Text", Json.str "Hola")]])⟩],
       [], (none, none)⟩ :=
  detect_empty_response_guarded catEF "https://x" "Hola" (by decide)

/-- Fixture catalog whose `"Detect"` display name has a code, colliding with
the auto-detect sentinel. -/
def catDetect : PyDict := [(Json.str "Detect", "zz"), (Json.str "English", "en")]

/-- Fixture catalog with an empty-string (falsy) language code. -/
def catEmptyCode : PyDict := [(Json.str "X", ""), (Json.str "English", "en")]

/-- Claim C1 counterexample: two source/target display-name pairs whose codes
are both present in the catalog on which the claim fails.  With source name
`"Detect"` (whose code `"zz"` is in the catalog) the one POST issued carries
no `from` parameter; with a target whose catalog code is the empty string
(falsy in Python) no POST is issued at all. -/
theorem translate_catalog_pair_cex :
    pyDictGet catDetect (Json.str "Detect") = some "zz" ∧
    pyDictGet catDetect (Json.str "English") = some "en" ∧
    (translate_text catDetect "https://x" "hola" "Detect" "English"
        (.ok respBonjour)).requests.map (fun r => r.params) =
      [[("api-version", "3.0"), ("to", "en")]] ∧
    pyDictGet catEmptyCode (Json.str "X") = some "" ∧
    pyDictGet catEmptyCode (Json.str "English") = some "en" ∧
    (translate_text catEmptyCode "https://x" "hi" "English" "X"
        (.ok respBonjour)).requests = [] :=
  ⟨rfl, rfl, rfl, rfl, rfl, rfl⟩

/-- Claim C1 (amended): when the source display name is not the literal
`"Detect"` and both display names resolve to non-empty codes, `translate_text`
issues exactly one POST to `/translate` with query parameters
`api-version=3.0`, `to=<target code>`, `from=<source code>`, and returns the
response's `translations[0].text` unchanged. -/
theorem translate_happy_path (languages : PyDict) (endpoint : String)
    (input_text source_language_name target_language_name : String)
    (target_lang_code source_lang_code : String) (data result : Json)
    (h1 : pyDictGet languages (Json.str target_language_name) = some target_lang_code)
    (h2 : target_lang_code ≠ "")
    (h3 : source_language_name ≠ "Detect")
    (h4 : pyDictGet languages (Json.str source_language_name) = some source_lang_code)
    (h5 : source_lang_code ≠ "")
    (h6 : extract_translation data = some result) :
    translate_text languages endpoint input_text source_language_name
        target_language_name (.ok data) =
      ⟨[⟨"POST", buildUrl endpoint "/translate",
         [("api-version", "3.0"), ("to", target_lang_code),
          ("from", source_lang_code)],
         some (Json.arr [Json.obj [("Text", Json.str input_text)]])⟩],
       [], result⟩ := by
  simp [translate_text, translateParams, translateBody, h1, h2, h3, h4, h5, h6]

/-- Witness for C1 (amended): the spec scenario
`translate("Hello", "English", "French")` with response
`[{"translations":[{"text":"Bonjour"}]}]` returns `"Bonjour"`. -/
theorem translate_happy_path_witness :
    translate_text catEF "https://x" "Hello" "English" "French"
        (.ok respBonjour) =
      ⟨[⟨"POST", buildUrl "https://x" "/translate",
         [("api-version", "3.0"), ("to", "fr"), ("from", "en")],
         some (Json.arr [Json.obj [("Text", Json.str "Hello")]])⟩],
       [], Json.str "Bonjour"⟩ :=
  translate_happy_path catEF "https://x" "Hello" "English" "French" "fr" "en"
    respBonjour (Json.str "Bonjour") rfl (by decide) (by decide) rfl
    (by decide) rfl

/-- The rational `0.97` in reduced structural form. -/
def q097 : ℚ := ⟨97, 100, by norm_num, by norm_num⟩

/-- Fixture auto-detect response: a translation plus a `detectedLanguage`
block with code `"es"` and score `0.97`. -/
def respDetected : Json :=
  Json.arr [Json.obj
    [("translations", Json.arr [Json.obj [("text", Json.str "Hello")]]),
     ("detectedLanguage", Json.obj
       [("language", Json.str "es"), ("score", Json.num q097)])]]

/-- Fixture catalog containing English and Spanish. -/
def catES : PyDict := [(Json.str "English", "en"), (Json.str "Spanish", "es")]

/-- Claim C3 counterexample: a call in which the `from` parameter is omitted
(the source name `"French"` does not resolve in the catalog and is not
`"Detect"`) and whose response carries a `detectedLanguage` block, yet no
informational message is surfaced - the code keys the message on the source
selection being the literal `"Detect"`, not on `from` being omitted. -/
theorem translate_from_omitted_no_info_cex :
    pyDictGet [(Json.str "English", "en")] (Json.str "French") = none ∧
    (translate_text [(Json.str "English", "en")] "https://x" "Hola" "French"
        "English" (.ok respDetected)).requests.map (fun r => r.params) =
      [[("api-version", "3.0"), ("to", "en")]] ∧
    ((respDetected.index 0).bind
        (fun e0 => e0.getField "detectedLanguage")).isSome = true ∧
    (translate_text [(Json.str "English", "en")] "https://x" "Hola" "French"
        "English" (.ok respDetected)).messages = [] :=
  ⟨rfl, rfl, rfl, rfl⟩

/-- Claim C3 (amended): for every call whose source display name is the
`"Detect"` sentinel (hence `from` is omitted) and whose response carries a
`detectedLanguage` block, `translate_text` surfaces one informational message
with the detected language's display name - the reverse catalog lookup of the
code, falling back to the raw code - and the confidence formatted as a
percentage, in addition to returning the translated text. -/
theorem translate_detect_info (languages : PyDict) (endpoint : String)
    (input_text target_language_name : String) (target_lang_code : String)
    (data result e0 det code score : Json) (q : ℚ)
    (h1 : pyDictGet languages (Json.str target_language_name) = some target_lang_code)
    (h2 : target_lang_code ≠ "")
    (h3 : extract_translation data = some result)
    (h4 : data.index 0 = some e0)
    (h5 : e0.hasMember "detectedLanguage" = some true)
    (h6 : e0.getField "detectedLanguage" = some det)
    (h7 : det.getField "language" = some code)
    (h8 : det.getField "score" = some score)
    (h9 : score.asNum = some q) :
    translate_text languages endpoint input_text "Detect"
        target_language_name (.ok data) =
      ⟨[⟨"POST", buildUrl endpoint "/translate",
         [("api-version", "3.0"), ("to", target_lang_code)],
         some (Json.arr [Json.obj [("Text", Json.str input_text)]])⟩],
       [Message.info (detectedInfoText (reverse_lookup languages code) q)],
       result⟩ := by
  simp [translate_text, translateParams, translateBody, h1, h2, h3, h4, h5,
    h6, h7, h8, h9]

/-- Witness for C3 (amended): the spec scenario
`translate("Hola", "Detect", "English")` with the `es`/`0.97` response
returns `"Hello"` and surfaces `Detected language: Spanish
(confidence: 97.00%)`. -/
theorem translate_detect_info_witness :
    translate_text catES "https://x" "Hola" "Detect" "English"
        (.ok respDetected) =
      ⟨[⟨"POST", buildUrl "https://x" "/translate",
         [("api-version", "3.0"), ("to", "en")],
         some (Json.arr [Json.obj [("Text", Json.str "Hola")]])⟩],
       [Message.info "Detected language: Spanish (confidence: 97.00%)"],
       Json.str "Hello"⟩ :=
  by
  have h := translate_detect_info catES "https://x" "Hola" "English" "en"
    respDetected (Json.str "Hello")
    (Json.obj
      [("translations", Json.arr [Json.obj [("text", Json.str "Hello")]]),
       ("detectedLanguage", Json.obj
         [("language", Json.str "es"), ("score", Json.num q097)])])
    (Json.obj [("language", Json.str "es"), ("score", Json.num q097)])
    (Json.str "es") (Json.num q097) q097
    rfl (by decide) rfl rfl rfl rfl rfl rfl rfl
  rw [show detectedInfoText (reverse_lookup catES (Json.str "es")) q097 =
      "Detected language: Spanish (confidence: 97.00%)" from rfl] at h
  exact h

/-! ## Last-write-wins catalog construction (C4) -/

/-- Whether a `/languages` entry's `details["name"]` equals `k` as a dict key. -/
def nameMatches (e : String × Json) (k : Json) : Bool :=
  match e.2.getField "name" with
  | some n => pyKeyEq n k
  | none => false

/-- The code of the last entry whose name matches `k`: the value a
last-write-wins insertion sequence leaves in the dict at key `k`. -/
def lastNameCode (entries : List (String × Json)) (k : Json) : Option String :=
  (entries.reverse.find? (fun e => nameMatches e k)).map (fun e => e.1)

theorem pyDictGet_map_replace_eq (d : PyDict) (k : Json) (v : String) (k2 : Json)
    (hk : pyKeyEq k k2 = true)
    (hany : d.any (fun p => pyKeyEq p.1 k) = true) :
    pyDictGet (d.map (fun p => if pyKeyEq p.1 k then (p.1, v) else p)) k2 = some v := by
  induction d with
  | nil => simp at hany
  | cons p rest ih =>
      by_cases hp : pyKeyEq p.1 k = true
      · have hpk2 : pyKeyEq p.1 k2 = true := pyKeyEq_trans hp hk
        simp [pyDictGet, hp, List.find?_cons_of_pos, hpk2]
      · have hp' : pyKeyEq p.1 k = false := by simpa using hp
        have hpk2 : pyKeyEq p.1 k2 = false := by
          by_contra hc
          have hc' : pyKeyEq p.1 k2 = true := by simpa using hc
          exact hp (pyKeyEq_trans hc' (pyKeyEq_symm hk))
        have hrest : rest.any (fun p => pyKeyEq p.1 k) = true := by
          simpa [hp'] using hany
        have := ih hrest
        simpa [pyDictGet, hp', List.find?_cons_of_neg, hpk2] using this

theorem pyDictGet_map_replace_ne (d : PyDict) (k : Json) (v : String) (k2 : Json)
    (hk : pyKeyEq k k2 = false) :
    pyDictGet (d.map (fun p => if pyKeyEq p.1 k then (p.1, v) else p)) k2 =
      pyDictGet d k2 := by
  induction d with
  | nil => rfl
  | cons p rest ih =>
      by_cases hp : pyKeyEq p.1 k = true
      · have hpk2 : pyKeyEq p.1 k2 = false := by
          by_contra hc
          have hc' : pyKeyEq p.1 k2 = true := by simpa using hc
          exact absurd (pyKeyEq_trans (pyKeyEq_symm hp) hc') (by simp [hk])
        simpa [pyDictGet, hp, List.find?_cons_of_neg, hpk2] using ih
      · have hp' : pyKeyEq p.1 k = false := by simpa using hp
        by_cases hpk2 : pyKeyEq p.1 k2 = true
        · simp [pyDictGet, hp', List.find?_cons_of_pos, hpk2]
        · have hpk2' : pyKeyEq p.1 k2 = false := by simpa using hpk2
          simpa [pyDictGet, hp', List.find?_cons_of_neg, hpk2'] using ih

/-- Looking up `k2` after the insertion `d[k] = v`: the inserted value when
`k == k2` in Python's sense, the old binding otherwise. -/
theorem pyDictGet_pyDictInsert (d : PyDict) (k : Json) (v : String) (k2 : Json) :
    pyDictGet (pyDictInsert d k v) k2 =
      if pyKeyEq k k2 then some v else pyDictGet d k2 := by
  by_cases hany : d.any (fun p => pyKeyEq p.1 k) = true
  · by_cases hk : pyKeyEq k k2 = true
    · simp [pyDictInsert, hany, hk, pyDictGet_map_replace_eq d k v k2 hk hany]
    · have hk' : pyKeyEq k k2 = false := by simpa using hk
      simp [pyDictInsert, hany, hk', pyDictGet_map_replace_ne d k v k2 hk']
  · have hany' : d.any (fun p => pyKeyEq p.1 k) = false := by simpa using hany
    have hfind : d.find? (fun p => pyKeyEq p.1 k2) = none ∨ pyKeyEq k k2 = false := by
      by_cases hk : pyKeyEq k k2 = true
      · left
        refine List.find?_eq_none.mpr (fun p hp => ?_)
        intro hpk2
        have : pyKeyEq p.1 k = true := pyKeyEq_trans hpk2 (pyKeyEq_symm hk)
        have : d.any (fun p => pyKeyEq p.1 k) = true :=
          List.any_eq_true.mpr ⟨p, hp, this⟩
        simp [hany'] at this
      · right; simpa using hk
    by_cases hk : pyKeyEq k k2 = true
    · rcases hfind with hnone | hfalse
      · simp [pyDictInsert, hany', pyDictGet, List.find?_append, hnone, hk]
      · simp [hk] at hfalse
    · have hk' : pyKeyEq k k2 = false := by simpa using hk
      simp [pyDictInsert, hany', pyDictGet, List.find?_append, hk']

theorem lastNameCode_cons (e : String × Json) (rest : List (String × Json))
    (k : Json) :
    lastNameCode (e :: rest) k =
      (lastNameCode rest k).or (if nameMatches e k then some e.1 else none) := by
  simp only [lastNameCode, List.reverse_cons, List.find?_append]
  cases hr : rest.reverse.find? (fun e => nameMatches e k) with
  | none =>
      cases hm : nameMatches e k <;>
        simp [List.find?, hm, Option.or]
  | some q => simp [Option.or]

theorem catalogFold_get (entries : List (String × Json)) (acc cat : PyDict)
    (k : Json) (h : entries.foldlM catalogStep acc = some cat) :
    pyDictGet cat k = (lastNameCode entries k).or (pyDictGet acc k) := by
  induction entries generalizing acc with
  | nil =>
      simp only [List.foldlM_nil, pure, Option.some.injEq] at h
      subst h
      simp [lastNameCode, Option.or]
  | cons e rest ih =>
      rw [List.foldlM_cons] at h
      cases hstep : catalogStep acc e with
      | none => simp [hstep] at h
      | some acc2 =>
          rw [hstep] at h
          have h2 : rest.foldlM catalogStep acc2 = some cat := h
          have hrec := ih acc2 h2
          obtain ⟨n, hn, hhash, hacc2⟩ :
              ∃ n, e.2.getField "name" = some n ∧ (pyKeyOf n).isSome = true ∧
                acc2 = pyDictInsert acc n e.1 := by
            unfold catalogStep at hstep
            cases hgf : e.2.getField "name" with
            | none => simp [hgf] at hstep
            | some n =>
                rw [hgf] at hstep
                by_cases hh : (pyKeyOf n).isSome = true
                · simp only [hh, if_true, Option.some.injEq] at hstep
                  exact ⟨n, rfl, hh, hstep.symm⟩
                · simp [hh] at hstep
          have hget2 : pyDictGet acc2 k =
              if pyKeyEq n k then some e.1 else pyDictGet acc k := by
            rw [hacc2]; exact pyDictGet_pyDictInsert acc n e.1 k
          have hnm : nameMatches e k = pyKeyEq n k := by
            simp [nameMatches, hn]
          rw [lastNameCode_cons, hrec, hget2, hnm]
          cases hlnc : lastNameCode rest k <;>
            cases hpk : pyKeyEq n k <;> simp [Option.or]

/-- Claim C4: for every successful `/languages` response, `fetch_languages`
builds the catalog mapping each entry's `name` to its code in iteration
order; when two codes share a display name, the later entry's code wins:
looking up any key yields the code of the last entry whose name matches it. -/
theorem fetch_languages_last_write_wins (endpoint : String) (data : Json)
    (entries : List (String × Json)) (cat : PyDict) (k : Json)
    (h1 : data.getField "translation" = some (Json.obj entries))
    (h2 : fetchBody data = some cat) :
    fetch_languages endpoint (.ok data) =
      ⟨[⟨"GET", buildUrl endpoint "/languages",
         [("api-version", "3.0"), ("scope", "translation")], none⟩], [], cat⟩ ∧
    pyDictGet cat k = lastNameCode entries k := by
  constructor
  · simp [fetch_languages, h2]
  · have h3 : entries.foldlM catalogStep [] = some cat := by
      unfold fetchBody at h2
      rw [h1] at h2
      exact h2
    have h4 := catalogFold_get entries [] cat k h3
    rw [h4]
    cases hlnc : lastNameCode entries k <;> simp [pyDictGet, Option.or]

/-- Fixture `/languages` entries with a duplicated display name `"X"`. -/
def entriesDup : List (String × Json) :=
  [("en", Json.obj [("name", Json.str "X")]),
   ("fr", Json.obj [("name", Json.str "X")]),
   ("de", Json.obj [("name", Json.str "German")])]

/-- Fixture `/languages` response body wrapping `entriesDup`. -/
def dataDup : Json := Json.obj [("translation", Json.obj entriesDup)]

/-- Witness for C4: with two entries named `"X"` (codes `"en"` then `"fr"`),
the built catalog maps `"X"` to the later code `"fr"`. -/
theorem fetch_languages_last_write_wins_witness :
    fetch_languages "https://x" (.ok dataDup) =
      ⟨[⟨"GET", buildUrl "https://x" "/languages",
         [("api-version", "3.0"), ("scope", "translation")], none⟩], [],
       [(Json.str "X", "fr"), (Json.str "German", "de")]⟩ ∧
    pyDictGet [(Json.str "X", "fr"), (Json.str "German", "de")]
      (Json.str "X") = some "fr" := by
  obtain ⟨hA, hB⟩ := fetch_languages_last_write_wins "https://x" dataDup
    entriesDup [(Json.str "X", "fr"), (Json.str "German", "de")]
    (Json.str "X") rfl rfl
  exact ⟨hA, hB.trans rfl⟩

/-! ## Reverse lookup round trip (C9) -/

/-- The invariant every actual catalog satisfies (it is built as a Python
dict): no two entries have keys that compare equal under Python `==`. -/
def pyDictNoDupKeys (d : PyDict) : Prop :=
  d.Pairwise (fun p q => pyKeyEq p.1 q.1 = false)

/-- Claim C9: over a catalog with the dict key invariant, for every code that
appears among the catalog's values the reverse lookup used by `translate_text`
and `detect_language` returns a display name whose forward catalog mapping is
exactly that code; for every other code it returns the raw code itself. -/
theorem reverse_lookup_round_trip (d : PyDict) (hd : pyDictNoDupKeys d)
    (c : String) :
    (c ∈ d.map (fun p => p.2) →
      pyDictGet d (reverse_lookup d (Json.str c)) = some c) ∧
    (c ∉ d.map (fun p => p.2) → reverse_lookup d (Json.str c) = Json.str c) := by
  constructor
  · intro hmem
    induction d with
    | nil => simp at hmem
    | cons p rest ih =>
        rw [pyDictNoDupKeys, List.pairwise_cons] at hd
        obtain ⟨hhead, htail⟩ := hd
        by_cases hc : Json.eqStr (Json.str c) p.2 = true
        · have hc2 : p.2 = c := by simpa [Json.eqStr, eq_comm] using hc
          rw [reverse_lookup,
            List.find?_cons_of_pos (p := fun q => Json.eqStr (Json.str c) q.2) rest hc]
          simp [pyDictGet, List.find?_cons_of_pos, pyKeyEq_refl, hc2]
        · have hc' : Json.eqStr (Json.str c) p.2 = false := by simpa using hc
          have hcne : c ≠ p.2 := by
            intro hcc
            simp [Json.eqStr, hcc] at hc'
          have hmem2 : c ∈ rest.map (fun p => p.2) := by
            rcases List.mem_map.mp hmem with ⟨q, hq, hq2⟩
            rcases List.mem_cons.mp hq with hq1 | hq1
            · exact absurd (hq1 ▸ hq2).symm hcne
            · exact List.mem_map.mpr ⟨q, hq1, hq2⟩
          have hrl : reverse_lookup (p :: rest) (Json.str c) =
              reverse_lookup rest (Json.str c) := by
            rw [reverse_lookup, reverse_lookup,
              List.find?_cons_of_neg
                (p := fun q => Json.eqStr (Json.str c) q.2) rest (by simp [hc'])]
          rw [hrl]
          have hfs : ∃ q0, rest.find? (fun q => Json.eqStr (Json.str c) q.2) =
              some q0 := by
            rcases List.mem_map.mp hmem2 with ⟨q, hq, hq2⟩
            have : (rest.find? (fun q => Json.eqStr (Json.str c) q.2)).isSome := by
              rw [List.find?_isSome]
              exact ⟨q, hq, by simp [Json.eqStr, hq2]⟩
            exact Option.isSome_iff_exists.mp this
          obtain ⟨q0, hq0⟩ := hfs
          have hq0mem : q0 ∈ rest := List.mem_of_find?_eq_some hq0
          have hkey : reverse_lookup rest (Json.str c) = q0.1 := by
            rw [reverse_lookup, hq0]
          have hne : pyKeyEq p.1 (reverse_lookup rest (Json.str c)) = false := by
            rw [hkey]; exact hhead q0 hq0mem
          rw [pyDictGet,
            List.find?_cons_of_neg
              (p := fun q => pyKeyEq q.1 (reverse_lookup rest (Json.str c)))
              rest (by simp [hne])]
          exact ih htail hmem2
  · intro hmem
    rw [reverse_lookup, List.find?_eq_none.mpr]
    intro q hq
    simp only [Json.eqStr, Bool.not_eq_true, decide_eq_false_iff_not]
    intro hqc
    exact hmem (List.mem_map.mpr ⟨q, hq, hqc.symm⟩)

/-- Witness for C9: in the English/French catalog, `"fr"` round-trips through
the reverse lookup, and the unknown code `"xx"` falls back to itself. -/
theorem reverse_lookup_round_trip_witness :
    pyDictGet catEF (reverse_lookup catEF (Json.str "fr")) = some "fr" ∧
    reverse_lookup catEF (Json.str "xx") = Json.str "xx" := by
  have h1 := reverse_lookup_round_trip catEF (by unfold pyDictNoDupKeys; decide) "fr"
  have h2 := reverse_lookup_round_trip catEF (by unfold pyDictNoDupKeys; decide) "xx"
  exact ⟨h1.1 (by decide), h2.2 (by decide)⟩
